import Mathlib

/-!
Verification of the toolchain-discovery and flag-regeneration layer of
pyokagan/gyp (pylib/gyp/__init__.py) against its natural-language
specification.  Python functions are shallowly embedded as executable Lean
definitions; external effects (the filesystem, the process environment,
subprocess launches) are passed in explicitly as function arguments, and
Python exceptions are modelled with Except.
-/

/-- Python exception kinds raised by the embedded code paths:
OSError from a failed subprocess launch, ValueError from int() on a
non-numeric string, TypeError from a constructor arity mismatch. -/
inductive PyErr
  | osError
  | valueError
  | typeError
deriving DecidableEq

/-- Checks that the pattern list is an initial segment of the other list.
Used to embed Python str.startswith and anchored regex literals. -/
def listStartsWith : List Char → List Char → Bool
  | [], _ => true
  | _ :: _, [] => false
  | p :: ps, c :: cs => p = c && listStartsWith ps cs

/-- Embeds Python str.split(sep, maxsplit): the Nat argument is the number
of splits still allowed; once it reaches zero the remaining separators are
kept inside the final component.  The accumulator holds the current
component reversed. -/
def pySplitChAux (sep : Char) : Nat → List Char → List Char → List (List Char)
  | _, acc, [] => [acc.reverse]
  | 0, acc, c :: cs => pySplitChAux sep 0 (c :: acc) cs
  | n + 1, acc, c :: cs =>
    if c = sep then acc.reverse :: pySplitChAux sep n [] cs
    else pySplitChAux sep (n + 1) (c :: acc) cs

/-- Embeds Python str.split(sep) with no maxsplit bound. -/
def splitAllAux (sep : Char) (acc : List Char) : List Char → List (List Char)
  | [] => [acc.reverse]
  | c :: cs =>
    if c = sep then acc.reverse :: splitAllAux sep [] cs
    else splitAllAux sep (c :: acc) cs

/-- Embeds Python str.split(sep) on a String, e.g. the PATH split on
os.pathsep in find_executables. -/
def splitAll (sep : Char) (s : String) : List String :=
  (splitAllAux sep [] s.data).map String.mk

/-- Embeds Python int() restricted to the inputs reachable here: segments
of a run of [0-9.] split on dots, so either a digit string (parsed) or a
string with no or stray characters (ValueError, modelled as none). -/
def pyIntParse (s : String) : Option Nat :=
  if s ≠ "" && s.data.all (fun c => c.isDigit) then
    some (s.data.foldl (fun n c => n * 10 + (c.toNat - 48)) 0)
  else none

/-- Embeds the version-tuple construction Version(*[int(x) for x in
g.split('.')]) used by identify_cc and identify_make; none models the
ValueError raised by int() on an empty or non-digit segment. -/
def parseDotted (s : String) : Option (List Nat) :=
  (splitAll '.' s).mapM pyIntParse

/-- Embeds the PlatformTriple namedtuple Triple(arch, os, env). -/
structure Triple where
  arch : String
  os : String
  env : String
deriving DecidableEq

/-- Embeds Triple.__str__: the dash-joined rendering. -/
def Triple.toStr (t : Triple) : String :=
  t.arch ++ "-" ++ t.os ++ "-" ++ t.env

/-- Embeds Triple.parse: target.split('-', 2) followed by cls(*x).  The
namedtuple constructor requires exactly three positional arguments, so a
split yielding fewer than three components raises TypeError. -/
def Triple.parse (target : String) : Except PyErr Triple :=
  match (pySplitChAux '-' 2 [] target.data).map String.mk with
  | [a, b, c] => .ok ⟨a, b, c⟩
  | _ => .error .typeError

/-- Embeds re.match applied to the pattern for i-three-eighty-six arch
names (letter i, one digit, then 86), anchored at both ends; the dollar
anchor also matches just before a single trailing newline. -/
def matchIx86 (s : String) : Bool :=
  match s.data with
  | ['i', d, '8', '6'] => d.isDigit
  | ['i', d, '8', '6', '\n'] => d.isDigit
  | _ => false

/-- Embeds Triple.gnu: GNU normalization of the architecture field. -/
def Triple.gnu (t : Triple) : Triple :=
  let arch := t.arch
  let arch := if matchIx86 arch then "x86" else arch
  let arch := if arch = "x64" then "x86_64" else arch
  ⟨arch, t.os, t.env⟩

/-- Embeds Triple.gyp: GYP normalization of the architecture field. -/
def Triple.gyp (t : Triple) : Triple :=
  let arch := t.arch
  let arch := if matchIx86 arch then "x86" else arch
  let arch := if arch = "x86_64" then "x64" else arch
  ⟨arch, t.os, t.env⟩

/-- Embeds posixpath.join for two components, the os.path.join used by
find_executables when building candidate paths. -/
def joinPath (p n : String) : String :=
  if listStartsWith ['/'] n.data then n
  else if p = "" || listStartsWith ['/'] p.data.reverse then p ++ n
  else p ++ "/" ++ n

/-- Embeds the nested yield loops of find_executables: for each name, for
each directory, for each suffix, the joined path is produced exactly when
os.access(path, F_OK or X_OK) holds; access is the filesystem oracle. -/
def findExecLoop (access : String → Bool) (names pathlist exts : List String) :
    List String :=
  names.flatMap fun name =>
    pathlist.flatMap fun d =>
      exts.filterMap fun ext =>
        let path := joinPath d name ++ ext
        if access path then some path else none

/-- Result of one run of find_executables: the produced paths, the state
of the caller-supplied paths list after the call (the Python code aliases
and mutates it in place), and the state of the caller's names list (which
the code never touches). -/
structure FindExecResult where
  found : List String
  paths_after : Option (List String)
  names_after : List String
deriving DecidableEq

/-- Embeds find_executables(names, paths).  isWin models
sys.platform.startswith('win'); environ models os.environ; access models
os.access.  On Windows the current-directory token is inserted at index 0
of pathlist, which aliases the caller's list when paths was supplied, and
suffixes come from PATHEXT; elsewhere the suffix list is just the empty
suffix. -/
def find_executables (isWin : Bool) (environ : String → Option String)
    (access : String → Bool) (names : List String)
    (paths : Option (List String)) : FindExecResult :=
  let pathsep : Char := if isWin then ';' else ':'
  let pathlist :=
    match paths with
    | none => splitAll pathsep ((environ "PATH").getD "")
    | some l => l
  let pathlist := if isWin then "." :: pathlist else pathlist
  let exts := if isWin then splitAll pathsep ((environ "PATHEXT").getD "") else [""]
  { found := findExecLoop access names pathlist exts
    paths_after :=
      match paths with
      | none => none
      | some l => some (if isWin then "." :: l else l)
    names_after := names }

/-- Candidate paths of find_executables in emission order, before the
filesystem check, used to state the search-order property. -/
def findExecCandidates (names pathlist exts : List String) : List String :=
  names.flatMap fun name =>
    pathlist.flatMap fun d =>
      exts.map fun ext => joinPath d name ++ ext

/-- Captured output streams of one subprocess probe (stdout, stderr). -/
structure ProcOut where
  out : String
  err : String
deriving DecidableEq

/-- The literal banner text preceding the version number in the MSVC
compiler's stderr output. -/
def msvcBanner : List Char :=
  "Microsoft (R) C/C++ Optimizing Compiler Version ".data

/-- Character class [0-9.] used by the dotted-version capture groups. -/
def isVerChar (c : Char) : Bool := c.isDigit || c = '.'

/-- Character class of letters, digits, dash and underscore used by the
arch and target capture groups. -/
def isArchChar (c : Char) : Bool := c.isAlpha || c.isDigit || c = '-' || c = '_'

/-- Embeds one line-start attempt of the MSVC banner regex of identify_cc:
the literal banner, a nonempty dotted-version run, the literal
space-for-space, then a nonempty arch token run. -/
def msvcMatchLine (line : List Char) : Option (String × String) :=
  if listStartsWith msvcBanner line then
    let rest := line.drop msvcBanner.length
    let ver := rest.takeWhile isVerChar
    if ver.isEmpty then none
    else
      let rest2 := rest.drop ver.length
      if listStartsWith " for ".data rest2 then
        let arch := (rest2.drop 5).takeWhile isArchChar
        if arch.isEmpty then none else some (String.mk ver, String.mk arch)
      else none
  else none

/-- Embeds re.search of the MSVC banner pattern with MULTILINE: the
caret anchor restricts match starts to line starts, and no pattern
element can cross a newline, so the leftmost match is found by trying
each line in order. -/
def msvcSearch (o : String) : Option (String × String) :=
  (splitAllAux '\n' [] o.data).findSome? msvcMatchLine

/-- Embeds one line-start attempt of the gcc-version regex of
identify_cc: the literal, then a nonempty dotted-version run. -/
def gccVersionLine (line : List Char) : Option String :=
  if listStartsWith "gcc version ".data line then
    let ver := (line.drop 12).takeWhile isVerChar
    if ver.isEmpty then none else some (String.mk ver)
  else none

/-- Embeds re.search of the gcc-version pattern with MULTILINE. -/
def gccVersionSearch (o : String) : Option String :=
  (splitAllAux '\n' [] o.data).findSome? gccVersionLine

/-- Embeds one line attempt of the Target regex of identify_cc: the
literal, then a nonempty arch-char run that must extend to the end of the
line because of the dollar anchor. -/
def gccTargetLine (line : List Char) : Option String :=
  if listStartsWith "Target: ".data line then
    let tgt := line.drop 8
    if tgt.isEmpty then none
    else if tgt.all isArchChar then some (String.mk tgt) else none
  else none

/-- Embeds re.search of the Target pattern with MULTILINE. -/
def gccTargetSearch (o : String) : Option String :=
  (splitAllAux '\n' [] o.data).findSome? gccTargetLine

/-- Embeds identify_cc(path).  The run oracle models subprocess.Popen on
an argument vector: some gives the captured streams of the completed
process, none models a launch failure, in which case Popen raises OSError
— the Python code has no handler for it.  The first probe runs the
candidate with no arguments and reads stderr; on no MSVC match the second
probe runs it with -v and p.communicate() is unpacked as (stdout, o), so
o is again stderr. -/
def identify_cc (run : List String → Option ProcOut) (path : String) :
    Except PyErr (String × List Nat × Triple) :=
  match run [path] with
  | none => .error .osError
  | some p1 =>
    let o := p1.err
    match msvcSearch o with
    | some (verStr, archStr) =>
      match parseDotted verStr with
      | none => .error .valueError
      | some version => .ok ("msvc", version, ⟨archStr, "win", "msvc"⟩)
    | none =>
      match run [path, "-v"] with
      | none => .error .osError
      | some p2 =>
        let o2 := p2.err
        match gccVersionSearch o2, gccTargetSearch o2 with
        | some verStr, some tgtStr =>
          match parseDotted verStr with
          | none => .error .valueError
          | some version =>
            match Triple.parse tgtStr with
            | .error e => .error e
            | .ok t => .ok ("gcc", version, t)
        | _, _ => .ok ("unknown", [], ⟨"unknown", "unknown", "unknown"⟩)

/-- Embeds re.match of the GNU Make banner (anchored at position 0, no
MULTILINE): the literal then a nonempty dotted-version run. -/
def gmakeMatch (stdout : String) : Option String :=
  if listStartsWith "GNU Make ".data stdout.data then
    let ver := (stdout.data.drop 9).takeWhile isVerChar
    if ver.isEmpty then none else some (String.mk ver)
  else none

/-- Python ASCII whitespace as stripped by str.strip() with no
argument. -/
def isSpaceChar (c : Char) : Bool :=
  c = ' ' || c = '\t' || c = '\n' || c = '\r' || c = '\x0b' || c = '\x0c'

/-- Embeds Python str.strip(): removes leading and trailing
whitespace. -/
def pyStrip (s : String) : String :=
  String.mk (((s.data.dropWhile isSpaceChar).reverse.dropWhile
    isSpaceChar).reverse)

/-- Embeds identify_make(path).  First probe: path with flag
double-dash-version, keeping stdout; a GNU Make banner match yields
gmake.  Second probe: path with double-dash-help, reading stderr; a ninja
usage banner yields ninja with the version parsed from the FIRST probe's
stdout.  A launch failure of either probe raises OSError (unhandled). -/
def identify_make (run : List String → Option ProcOut) (path : String) :
    Except PyErr (String × List Nat) :=
  match run [path, "--version"] with
  | none => .error .osError
  | some p1 =>
    match gmakeMatch p1.out with
    | some verStr =>
      match parseDotted verStr with
      | none => .error .valueError
      | some v => .ok ("gmake", v)
    | none =>
      match run [path, "--help"] with
      | none => .error .osError
      | some p2 =>
        if listStartsWith "usage: ninja".data p2.err.data then
          match parseDotted (pyStrip p1.out) with
          | none => .error .valueError
          | some v => .ok ("ninja", v)
        else .ok ("unknown", [])

/-- Python truthiness of an optional string: None and the empty string
are falsy. -/
def optStrTruthy : Option String → Bool
  | none => false
  | some s => s ≠ ""

/-- Embeds the NDK/search-path fragment of gyp_main (the lines reading
ANDROID_NDK_ROOT through the computation of paths).  globFn models
glob.glob; the pattern argument it receives is the os.path.join of the
NDK root with the toolchain wildcard components.  The GypError raised
when the variable is unset is modelled as the error case. -/
def gyp_main_ndk_paths (environ : String → Option String)
    (globFn : String → List String) (android : Bool) (build : Triple)
    (pathsep : Char) : Except String (List String) :=
  let android_ndk := environ "ANDROID_NDK_ROOT"
  if optStrTruthy android_ndk = false then
    .error "ANDROID_NDK_ROOT environment variable is not defined"
  else if android then
    .ok (globFn (["toolchains", "*", "prebuilt",
      build.os ++ "-" ++ build.arch, "bin"].foldl joinPath
        (android_ndk.getD "")))
  else
    .ok (splitAll pathsep ((environ "PATH").getD ""))

/-- Embeds FormatOpt(opt, value): long-form flags are rendered with an
equals sign, short flags by direct concatenation. -/
def FormatOpt (opt value : String) : String :=
  if listStartsWith ['-', '-'] opt.data then opt ++ "=" ++ value
  else opt ++ value

/-- Embeds shlex.split on the inputs exercised here, which contain no
quote or escape characters: whitespace-separated tokens, empty tokens
dropped. -/
def shlexSplit (s : String) : List String :=
  ((splitAllAux ' ' [] s.data).map String.mk).filter (fun t => t ≠ "")

/-- Embeds ShlexEnv(env_name): an unset variable yields the empty list,
an empty value is falsy and also yields the empty list, otherwise the
value is shell-tokenized. -/
def ShlexEnv (environ : String → Option String) (env_name : String) :
    List String :=
  match environ env_name with
  | none => []
  | some s => if s ≠ "" then shlexSplit s else []

/-- Embeds RegenerateAppendFlag(flag, values, predicate, env_name,
options).  The options object contributes only use_environment; environ
models os.environ.  The environment loop removes an already-present
formatted token before re-appending it; then the explicit values are
appended unconditionally. -/
def RegenerateAppendFlag (flag : String) (values : List String)
    (predicate : String → String) (env_name : Option String)
    (use_environment : Bool) (environ : String → Option String) :
    List String :=
  let flags : List String := []
  let flags :=
    if use_environment && optStrTruthy env_name then
      (ShlexEnv environ (env_name.getD "")).foldl
        (fun flags flag_value =>
          let value := FormatOpt flag (predicate flag_value)
          let flags := if flags.contains value then flags.erase value else flags
          flags ++ [value]) flags
    else flags
  if !values.isEmpty then
    flags ++ values.map (fun flag_value => FormatOpt flag (predicate flag_value))
  else flags

/-- Keeps the last occurrence of each element, preserving the order of
last occurrences: the specification's last-write-wins token order. -/
def dedupKeepLast : List String → List String
  | [] => []
  | x :: xs => if xs.contains x then dedupKeepLast xs else x :: dedupKeepLast xs

/-- Python value held by a parsed option: None, a string, a list of
strings, or a boolean.  List options always hold lists or None here, so
no other shapes are modelled. -/
inductive PyVal
  | vnone
  | vstr (s : String)
  | vlist (l : List String)
  | vbool (b : Bool)
deriving DecidableEq

/-- Python truthiness of an option value. -/
def PyVal.truthy : PyVal → Bool
  | .vnone => false
  | .vstr s => s ≠ ""
  | .vlist l => !l.isEmpty
  | .vbool b => b

/-- String rendering of an option value as interpolated by FormatOpt;
store-action options only ever hold strings (or are falsy and never
rendered), so the list case is unreachable and rendered as empty. -/
def PyVal.toPyStr : PyVal → String
  | .vnone => "None"
  | .vstr s => s
  | .vbool b => if b then "True" else "False"
  | .vlist _ => ""

/-- List content of an option value as iterated by the append branch;
append-action options only ever hold lists or a falsy None. -/
def PyVal.toStrList : PyVal → List String
  | .vlist l => l
  | _ => []

/-- Per-option regeneration metadata recorded by
RegeneratableOptionParser.add_option. -/
structure OptMeta where
  opt : String
  action : Option String
  type : Option String
  env_name : Option String
deriving DecidableEq

/-- A diagnostic line printed to stderr by RegenerateFlags for a case it
cannot regenerate. -/
inductive RegenWarning
  | envUnimplemented (action opt envName : String)
  | actionUnimplemented (action : Option String) (opt : String)
deriving DecidableEq

/-- The inputs of RegenerateFlags drawn from the parsed options object:
use_environment, the regeneration-metadata table in iteration order, and
the per-option current values (getattr). -/
structure RegenOptions where
  use_environment : Bool
  metadata : List (String × OptMeta)
  values : String → PyVal

/-- Embeds the FixPath closure of RegenerateFlags; fixRel models the
external gyp.common.FixIfRelativePath partially applied to
options.depth. -/
def FixPath (fixRel : String → String) (path : String) : String :=
  let path := fixRel path
  if path = "" then "." else path

/-- Embeds RegenerateFlags(options).  Returns the regenerated flag list
together with the warnings printed to stderr; the function contains no
raise statement, so there is no error outcome. -/
def RegenerateFlags (fixRel : String → String)
    (environ : String → Option String) (opts : RegenOptions) :
    List String × List RegenWarning :=
  opts.metadata.foldl
    (fun st nameMeta =>
      let flags := st.1
      let warns := st.2
      let metadata := nameMeta.2
      let opt := metadata.opt
      let value := opts.values nameMeta.1
      let value_predicate :=
        if metadata.type = some "path" then FixPath fixRel else fun v => v
      let action := metadata.action
      let env_name := metadata.env_name
      if action = some "append" then
        (flags ++ RegenerateAppendFlag opt value.toStrList value_predicate
          env_name opts.use_environment environ, warns)
      else if action = some "store" ∨ action = none then
        if value.truthy then
          (flags ++ [FormatOpt opt (value_predicate value.toPyStr)], warns)
        else if opts.use_environment && optStrTruthy env_name &&
            optStrTruthy (environ (env_name.getD "")) then
          (flags ++ [FormatOpt opt
            (value_predicate ((environ (env_name.getD "")).getD ""))], warns)
        else (flags, warns)
      else if action = some "store_true" ∨ action = some "store_false" then
        if (action = some "store_true" ∧ value.truthy) ∨
            (action = some "store_false" ∧ ¬ value.truthy) then
          (flags ++ [opt], warns)
        else if opts.use_environment && optStrTruthy env_name then
          (flags, warns ++ [.envUnimplemented (action.getD "") opt
            (env_name.getD "")])
        else (flags, warns)
      else
        (flags, warns ++ [.actionUnimplemented action opt]))
    (["--ignore-environment"], [])

/-- Probe oracle for a candidate whose no-argument stderr contains the
MSVC banner line among other output. -/
def msvcFixtureRun : List String → Option ProcOut := fun args =>
  if args = ["cl"] then
    some ⟨"", "Some preamble\nMicrosoft (R) C/C++ Optimizing Compiler Version 19.0 for x64\nCopyright lines\n"⟩
  else some ⟨"", ""⟩

/-- Probe oracle for a candidate whose output matches neither the MSVC
banner nor the gcc protocol. -/
def unknownFixtureRun : List String → Option ProcOut := fun _ =>
  some ⟨"", "clang version 12.0, no gcc here"⟩

/-- One iteration of the environment loop of RegenerateAppendFlag on an
already-formatted token: remove an earlier occurrence if present, then
append at the end. -/
def appendStep (fl : List String) (v : String) : List String :=
  (if fl.contains v then fl.erase v else fl) ++ [v]

lemma stringMkData (s : String) : String.mk s.data = s := rfl

lemma erase_eq_filter_bne (x : String) (l : List String) (h : l.Nodup) :
    l.erase x = l.filter (fun a => a != x) := by
  have h2 := List.Nodup.erase_eq_filter h x
  simpa [bne] using h2

lemma appendStep_eq (acc : List String) (x : String) (h : acc.Nodup) :
    appendStep acc x = acc.filter (fun a => a != x) ++ [x] := by
  unfold appendStep
  by_cases hc : acc.contains x
  · rw [if_pos hc, erase_eq_filter_bne x acc h]
  · rw [if_neg hc]
    congr 1
    symm
    apply List.filter_eq_self.mpr
    intro a ha
    have hx : x ∉ acc := by simpa using hc
    have : a ≠ x := fun e => hx (e ▸ ha)
    simpa [bne] using this

lemma appendStep_nodup (acc : List String) (x : String) (h : acc.Nodup) :
    (appendStep acc x).Nodup := by
  rw [appendStep_eq acc x h]
  refine List.Nodup.append (h.filter _) (List.nodup_singleton x) ?_
  intro a ha hax
  have h1 : (a != x) = true := (List.mem_filter.mp ha).2
  have h2 : a = x := by simpa using hax
  simp [h2] at h1

lemma foldl_appendStep_eq (l : List String) :
    ∀ acc : List String, acc.Nodup →
      l.foldl appendStep acc =
        acc.filter (fun a => !l.contains a) ++ dedupKeepLast l := by
  induction l with
  | nil =>
    intro acc h
    simp [dedupKeepLast]
  | cons x xs ih =>
    intro acc h
    rw [List.foldl_cons, ih (appendStep acc x) (appendStep_nodup acc x h),
      appendStep_eq acc x h, List.filter_append]
    have hff : List.filter (fun a => !xs.contains a)
        (List.filter (fun a => a != x) acc) =
        List.filter (fun a => !(x :: xs).contains a) acc := by
      rw [List.filter_filter]
      apply List.filter_congr
      intro a _
      by_cases hax : a = x <;> simp [hax, List.contains_cons, bne]
    rw [hff, List.append_assoc]
    congr 1
    by_cases hx : x ∈ xs
    · simp [dedupKeepLast, hx]
    · simp [dedupKeepLast, hx]

lemma pySplitChAux_zero (sep : Char) :
    ∀ (l acc : List Char), pySplitChAux sep 0 acc l = [acc.reverse ++ l] := by
  intro l
  induction l with
  | nil => intro acc; simp [pySplitChAux]
  | cons c cs ih =>
    intro acc
    simp only [pySplitChAux]
    rw [ih]
    simp

lemma pySplitChAux_no_sep (sep : Char) :
    ∀ (l acc : List Char) (m : Nat), (∀ c ∈ l, c ≠ sep) →
      pySplitChAux sep m acc l = [acc.reverse ++ l] := by
  intro l
  induction l with
  | nil => intro acc m h; simp [pySplitChAux]
  | cons c cs ih =>
    intro acc m h
    have hc : c ≠ sep := h c (List.mem_cons_self c cs)
    have htail : ∀ d ∈ cs, d ≠ sep := fun d hd => h d (List.mem_cons_of_mem c hd)
    cases m with
    | zero =>
      simp only [pySplitChAux]
      rw [ih (c :: acc) 0 htail]
      simp
    | succ n =>
      simp only [pySplitChAux]
      rw [if_neg hc, ih (c :: acc) (n + 1) htail]
      simp

lemma pySplitChAux_seg (sep : Char) (n : Nat) :
    ∀ (seg rest acc : List Char), (∀ c ∈ seg, c ≠ sep) →
      pySplitChAux sep (n + 1) acc (seg ++ sep :: rest) =
        (acc.reverse ++ seg) :: pySplitChAux sep n [] rest := by
  intro seg
  induction seg with
  | nil => intro rest acc h; simp [pySplitChAux]
  | cons c cs ih =>
    intro rest acc h
    have hc : c ≠ sep := h c (List.mem_cons_self c cs)
    have htail : ∀ d ∈ cs, d ≠ sep := fun d hd => h d (List.mem_cons_of_mem c hd)
    simp only [List.cons_append, pySplitChAux, List.append_eq]
    rw [if_neg hc, ih rest (c :: acc) htail]
    simp

lemma stringDataAppend (s t : String) : (s ++ t).data = s.data ++ t.data := rfl

/-- C8: both Triple normalizations are idempotent, and they realise the
specific mappings: gnu sends i686-linux-gnu to x86-linux-gnu and
x64-win-msvc to x86_64-win-msvc, while gyp sends x86_64-win-msvc to
x64-win-msvc. -/
theorem triple_normalization_idempotent :
    (∀ t : Triple, t.gnu.gnu = t.gnu) ∧ (∀ t : Triple, t.gyp.gyp = t.gyp) ∧
    Triple.gnu ⟨"i686", "linux", "gnu"⟩ = ⟨"x86", "linux", "gnu"⟩ ∧
    Triple.gnu ⟨"x64", "win", "msvc"⟩ = ⟨"x86_64", "win", "msvc"⟩ ∧
    Triple.gyp ⟨"x86_64", "win", "msvc"⟩ = ⟨"x64", "win", "msvc"⟩ := by
  have hx86 : matchIx86 "x86" = false := rfl
  have hx8664 : matchIx86 "x86_64" = false := rfl
  have hx64 : matchIx86 "x64" = false := rfl
  refine ⟨?_, ?_, rfl, rfl, rfl⟩
  · intro t
    by_cases h1 : matchIx86 t.arch
    · have e1 : t.gnu = ⟨"x86", t.os, t.env⟩ := by simp [Triple.gnu, h1]
      rw [e1]
      have hne : ("x86" : String) ≠ "x64" := by decide
      simp [Triple.gnu, hx86, hne]
    · by_cases h2 : t.arch = "x64"
      · have e1 : t.gnu = ⟨"x86_64", t.os, t.env⟩ := by
          simp [Triple.gnu, h1, h2, hx64]
        rw [e1]
        have hne : ("x86_64" : String) ≠ "x64" := by decide
        simp [Triple.gnu, hx8664, hne]
      · have e1 : t.gnu = ⟨t.arch, t.os, t.env⟩ := by simp [Triple.gnu, h1, h2]
        rw [e1]
        simp [Triple.gnu, h1, h2]
  · intro t
    by_cases h1 : matchIx86 t.arch
    · have e1 : t.gyp = ⟨"x86", t.os, t.env⟩ := by simp [Triple.gyp, h1]
      rw [e1]
      have hne : ("x86" : String) ≠ "x86_64" := by decide
      simp [Triple.gyp, hx86, hne]
    · by_cases h2 : t.arch = "x86_64"
      · have e1 : t.gyp = ⟨"x64", t.os, t.env⟩ := by
          simp [Triple.gyp, h1, h2, hx8664]
        rw [e1]
        have hne : ("x64" : String) ≠ "x86_64" := by decide
        simp [Triple.gyp, hx64, hne]
      · have e1 : t.gyp = ⟨t.arch, t.os, t.env⟩ := by simp [Triple.gyp, h1, h2]
        rw [e1]
        simp [Triple.gyp, h1, h2]

/-- C4 (code bug): gyp_main raises the missing-ANDROID_NDK_ROOT
configuration error even when the Android target is not selected; the
second conjunct shows that with the variable set the non-Android path
proceeds normally, so the check is unconditional only by mistake. -/
theorem gyp_main_ndk_check_unconditional :
    ∀ (globFn : String → List String) (build : Triple) (sep : Char),
      gyp_main_ndk_paths (fun _ => none) globFn false build sep =
        .error "ANDROID_NDK_ROOT environment variable is not defined" ∧
      gyp_main_ndk_paths
        (fun n => if n = "ANDROID_NDK_ROOT" then some "/ndk" else none)
        globFn false build sep = .ok [""] := by
  intro globFn build sep
  exact ⟨rfl, rfl⟩

/-- C10: on a Windows-like host, find_executables with an explicitly
supplied paths list mutates the caller-owned list by inserting the
current-directory token at index 0, so the caller's list gains one
element; the names list is never mutated on any host. -/
theorem find_executables_mutates_caller_paths :
    ∀ (environ : String → Option String) (access : String → Bool)
      (names paths : List String),
      (find_executables true environ access names (some paths)).paths_after =
        some ("." :: paths) ∧
      (find_executables true environ access names (some paths)).paths_after.map
        List.length = some (paths.length + 1) ∧
      ∀ (isWin : Bool) (popt : Option (List String)),
        (find_executables isWin environ access names popt).names_after =
          names := by
  intro environ access names paths
  refine ⟨rfl, ?_, fun isWin popt => rfl⟩
  simp [find_executables]

/-- C3 (counterexample): Triple.parse applied to one-component and
two-component inputs raises TypeError instead of returning a Triple with
empty trailing components. -/
theorem triple_parse_short_input_raises :
    Triple.parse "x64" = .error .typeError ∧
    Triple.parse "x64-win" = .error .typeError := ⟨rfl, rfl⟩

/-- C3 (amended): Triple.parse splits only on the first two dash
separators, so an env component containing a dash is preserved whole; the
namedtuple constructor then demands exactly three components, so inputs
with fewer than three components raise TypeError rather than filling the
missing fields. -/
theorem triple_parse_split_arity (a b c s : String)
    (ha : ∀ ch ∈ a.data, ch ≠ '-') (hb : ∀ ch ∈ b.data, ch ≠ '-')
    (hs : ∀ ch ∈ s.data, ch ≠ '-') :
    Triple.parse (a ++ "-" ++ b ++ "-" ++ c) = .ok ⟨a, b, c⟩ ∧
    Triple.parse s = .error .typeError ∧
    Triple.parse "a-b-c-d" = .ok ⟨"a", "b", "c-d"⟩ := by
  refine ⟨?_, ?_, rfl⟩
  · have hdata : (a ++ "-" ++ b ++ "-" ++ c).data =
        a.data ++ '-' :: (b.data ++ '-' :: c.data) := by
      simp [stringDataAppend]
    unfold Triple.parse
    rw [hdata, pySplitChAux_seg '-' 1 a.data _ [] ha,
      pySplitChAux_seg '-' 0 b.data _ [] hb, pySplitChAux_zero]
    simp [stringMkData]
  · unfold Triple.parse
    rw [pySplitChAux_no_sep '-' s.data [] 2 hs]
    simp [stringMkData]

/-- Closed witness for the hypotheses of triple_parse_split_arity. -/
theorem triple_parse_split_arity_witness :
    (∀ ch ∈ "x86_64".data, ch ≠ '-') ∧ (∀ ch ∈ "linux".data, ch ≠ '-') ∧
    (∀ ch ∈ "mingw32".data, ch ≠ '-') ∧
    (Triple.parse ("x86_64" ++ "-" ++ "linux" ++ "-" ++ "gnu") =
        .ok ⟨"x86_64", "linux", "gnu"⟩ ∧
      Triple.parse "mingw32" = .error .typeError ∧
      Triple.parse "a-b-c-d" = .ok ⟨"a", "b", "c-d"⟩) :=
  ⟨by decide, by decide, by decide,
    triple_parse_split_arity "x86_64" "linux" "gnu" "mingw32"
      (by decide) (by decide) (by decide)⟩

lemma filterMap_if_eq_filter (p : String → Bool) (f : String → String) :
    ∀ l : List String,
      (l.filterMap fun x => if p (f x) then some (f x) else none) =
        (l.map f).filter p := by
  intro l
  induction l with
  | nil => rfl
  | cons a t ih =>
    by_cases h : p (f a) <;>
      simp [List.filterMap_cons, List.filter_cons, h, ih]

lemma filter_flatMap_comm (p : String → Bool) (g : String → List String) :
    ∀ l : List String,
      (l.flatMap g).filter p = l.flatMap fun a => (g a).filter p := by
  intro l
  induction l with
  | nil => rfl
  | cons a t ih => simp [List.flatMap_cons, List.filter_append, ih]

/-- C2 (counterexample): with two names and two directories all present
and executable, find_executables yields in name-major order (all
directories for the first name, then all for the second), not the
directory-major order the claim states. -/
theorem find_executables_not_directory_major :
    (find_executables false (fun _ => none)
      (fun p => ["/d1/a", "/d2/a", "/d1/b", "/d2/b"].contains p)
      ["a", "b"] (some ["/d1", "/d2"])).found =
      ["/d1/a", "/d2/a", "/d1/b", "/d2/b"] ∧
    (["/d1/a", "/d2/a", "/d1/b", "/d2/b"] : List String) ≠
      ["/d1/a", "/d1/b", "/d2/a", "/d2/b"] := by
  refine ⟨rfl, by decide⟩

/-- C2 (amended): find_executables yields matching paths in name-major
order — for each candidate name, then for each search directory, then for
each suffix, the joined path appears exactly when the filesystem oracle
accepts it; a missing file contributes no element and the function is
total (never raises).  The final conjunct is the specification's own
example: only an executable match is yielded, a non-executable file of
the right name contributes nothing. -/
theorem find_executables_name_major_order :
    (∀ (access : String → Bool) (names pathlist exts : List String),
      findExecLoop access names pathlist exts =
        (findExecCandidates names pathlist exts).filter access) ∧
    (find_executables false (fun _ => none) (fun p => p = "/b/gcc")
      ["cc", "gcc"] (some ["/a", "/b"])).found = ["/b/gcc"] := by
  refine ⟨?_, rfl⟩
  intro access names pathlist exts
  unfold findExecLoop findExecCandidates
  rw [filter_flatMap_comm]
  apply List.flatMap_congr ?_
  intro name _
  rw [filter_flatMap_comm]
  apply List.flatMap_congr ?_
  intro d _
  rw [filterMap_if_eq_filter]

/-- C1 (counterexample): a probe whose process launch fails makes
identify_cc and identify_make propagate OSError instead of returning the
unknown sentinel. -/
theorem identify_launch_failure_counterexample :
    identify_cc (fun _ => none) "cc" = .error .osError ∧
    identify_make (fun _ => none) "make" = .error .osError ∧
    identify_cc (fun _ => none) "cc" ≠
      .ok ("unknown", [], ⟨"unknown", "unknown", "unknown"⟩) ∧
    identify_make (fun _ => none) "make" ≠ .ok ("unknown", []) := by
  refine ⟨rfl, rfl, fun h => Except.noConfusion h, fun h => Except.noConfusion h⟩

/-- C1 (amended): identify_cc and identify_make return the unknown
sentinel only for probes that run and match no known pattern; a process
launch failure is not caught and propagates OSError out of the probe. -/
theorem identify_launch_failure_propagates :
    ∀ (run : List String → Option ProcOut) (path : String),
      (run [path] = none → identify_cc run path = .error .osError) ∧
      (run [path, "--version"] = none →
        identify_make run path = .error .osError) := by
  intro run path
  constructor
  · intro h
    unfold identify_cc
    rw [h]
  · intro h
    unfold identify_make
    rw [h]

/-- Closed witness for the hypotheses of
identify_launch_failure_propagates. -/
theorem identify_launch_failure_propagates_witness :
    ((fun (_ : List String) => (none : Option ProcOut)) ["gcc"] = none ∧
      identify_cc (fun _ => none) "gcc" = .error .osError) ∧
    ((fun (_ : List String) => (none : Option ProcOut)) ["gmake", "--version"] =
        none ∧
      identify_make (fun _ => none) "gmake" = .error .osError) :=
  ⟨⟨rfl, (identify_launch_failure_propagates (fun _ => none) "gcc").1 rfl⟩,
    ⟨rfl, (identify_launch_failure_propagates (fun _ => none) "gmake").2 rfl⟩⟩

/-- C9: the MSVC banner fixture identifies as msvc 19.0 targeting
x64-win-msvc; an unrelated-output fixture yields exactly the unknown
sentinel; and in general the unknown kind is only ever paired with the
empty version and the all-unknown triple. -/
theorem identify_cc_msvc_banner_and_unknown_sentinel :
    identify_cc msvcFixtureRun "cl" =
      .ok ("msvc", [19, 0], ⟨"x64", "win", "msvc"⟩) ∧
    identify_cc unknownFixtureRun "cc" =
      .ok ("unknown", [], ⟨"unknown", "unknown", "unknown"⟩) ∧
    ∀ (run : List String → Option ProcOut) (path k : String)
      (v : List Nat) (t : Triple),
      identify_cc run path = .ok (k, v, t) → k = "unknown" →
      v = [] ∧ t = ⟨"unknown", "unknown", "unknown"⟩ := by
  refine ⟨rfl, rfl, ?_⟩
  intro run path k v t h hk
  unfold identify_cc at h
  cases hr1 : run [path] with
  | none => rw [hr1] at h; exact Except.noConfusion h
  | some p1 =>
    rw [hr1] at h
    try dsimp only at h
    cases hms : msvcSearch p1.err with
    | some pr =>
      obtain ⟨verStr, archStr⟩ := pr
      rw [hms] at h
      try dsimp only at h
      cases hpd : parseDotted verStr with
      | none => rw [hpd] at h; exact Except.noConfusion h
      | some version =>
        rw [hpd] at h
        try dsimp only at h
        injection h with h2
        simp_all
    | none =>
      rw [hms] at h
      try dsimp only at h
      cases hr2 : run [path, "-v"] with
      | none => rw [hr2] at h; exact Except.noConfusion h
      | some p2 =>
        rw [hr2] at h
        try dsimp only at h
        cases hgv : gccVersionSearch p2.err with
        | some verStr =>
          rw [hgv] at h
          try dsimp only at h
          cases hgt : gccTargetSearch p2.err with
          | some tgtStr =>
            rw [hgt] at h
            try dsimp only at h
            cases hpd : parseDotted verStr with
            | none => rw [hpd] at h; exact Except.noConfusion h
            | some version =>
              rw [hpd] at h
              try dsimp only at h
              cases htp : Triple.parse tgtStr with
              | error e => rw [htp] at h; exact Except.noConfusion h
              | ok tr =>
                rw [htp] at h
                try dsimp only at h
                injection h with h2
                simp_all
          | none =>
            rw [hgt] at h
            try dsimp only at h
            injection h with h2
            simp_all
        | none =>
          rw [hgv] at h
          try dsimp only at h
          injection h with h2
          simp_all

/-- Closed witness for the hypotheses of
identify_cc_msvc_banner_and_unknown_sentinel. -/
theorem identify_cc_unknown_sentinel_witness :
    identify_cc unknownFixtureRun "cc" =
        .ok ("unknown", [], ⟨"unknown", "unknown", "unknown"⟩) ∧
      ("unknown" : String) = "unknown" ∧
      (([] : List Nat) = [] ∧
        (⟨"unknown", "unknown", "unknown"⟩ : Triple) =
          ⟨"unknown", "unknown", "unknown"⟩) :=
  ⟨rfl, rfl,
    identify_cc_msvc_banner_and_unknown_sentinel.2.2 unknownFixtureRun "cc"
      "unknown" [] ⟨"unknown", "unknown", "unknown"⟩ rfl rfl⟩

/-- C5 (counterexample): a store_true option with a registered
environment variable whose value does not match the activated polarity,
and an option with an out-of-set action, make RegenerateFlags print a
warning and return normally with the option dropped — no error is raised
to the caller. -/
theorem regenerate_unsupported_returns_normally :
    RegenerateFlags (fun s => s) (fun _ => none)
      ⟨true, [("check", ⟨"--check", some "store_true", none,
        some "GYP_CROSSCOMPILE"⟩)], fun _ => .vbool false⟩ =
      (["--ignore-environment"],
        [.envUnimplemented "store_true" "--check" "GYP_CROSSCOMPILE"]) ∧
    RegenerateFlags (fun s => s) (fun _ => none)
      ⟨true, [("n", ⟨"--count-flag", some "count", none, none⟩)],
        fun _ => .vnone⟩ =
      (["--ignore-environment"],
        [.actionUnimplemented (some "count") "--count-flag"]) := ⟨rfl, rfl⟩

/-- C5 (amended): when a store_true or store_false option whose current
value does not match the activated polarity has a registered environment
variable, or an option has an action outside the supported set,
RegenerateFlags reports the case as a stderr warning and emits no token
for that option, returning normally instead of raising. -/
theorem regenerate_unsupported_warns_and_drops :
    ∀ (fixRel : String → String) (environ : String → Option String)
      (name opt en : String) (ty : Option String) (v : PyVal),
      (RegenerateFlags fixRel environ
        ⟨true, [(name, ⟨opt, some "store_true", ty, some en⟩)],
          fun _ => v⟩ =
        if v.truthy then (["--ignore-environment", opt], [])
        else if en ≠ "" then
          (["--ignore-environment"],
            [.envUnimplemented "store_true" opt en])
        else (["--ignore-environment"], [])) ∧
      (RegenerateFlags fixRel environ
        ⟨true, [(name, ⟨opt, some "store_false", ty, some en⟩)],
          fun _ => v⟩ =
        if v.truthy = false then (["--ignore-environment", opt], [])
        else if en ≠ "" then
          (["--ignore-environment"],
            [.envUnimplemented "store_false" opt en])
        else (["--ignore-environment"], [])) ∧
      RegenerateFlags fixRel environ
        ⟨true, [(name, ⟨opt, some "count", ty, some en⟩)], fun _ => v⟩ =
        (["--ignore-environment"], [.actionUnimplemented (some "count") opt]) := by
  intro fixRel environ name opt en ty v
  refine ⟨?_, ?_, ?_⟩
  · by_cases hv : v.truthy = true
    · simp [RegenerateFlags, hv]
    · by_cases he : en = ""
      · simp [RegenerateFlags, hv, he, optStrTruthy]
      · simp [RegenerateFlags, hv, he, optStrTruthy]
  · by_cases hv : v.truthy = true
    · by_cases he : en = ""
      · simp [RegenerateFlags, hv, he, optStrTruthy]
      · simp [RegenerateFlags, hv, he, optStrTruthy]
    · simp [RegenerateFlags, hv]
  · simp [RegenerateFlags]

/-- C7: for a store-action option, RegenerateFlags emits exactly one
token for the current value when the option holds one; otherwise, with
environment influence enabled and the registered environment variable
set, exactly one token built from the environment value; with neither, no
token for that option.  The closing conjuncts instantiate the three
cases. -/
theorem regenerate_store_one_token :
    (∀ (fixRel : String → String) (environ : String → Option String)
      (useEnv : Bool) (name opt : String) (ty envn : Option String)
      (v : PyVal),
      RegenerateFlags fixRel environ
        ⟨useEnv, [(name, ⟨opt, some "store", ty, envn⟩)], fun _ => v⟩ =
        (let vp := if ty = some "path" then FixPath fixRel else fun s => s
        if v.truthy then
          (["--ignore-environment", FormatOpt opt (vp v.toPyStr)], [])
        else if useEnv && optStrTruthy envn &&
            optStrTruthy (environ (envn.getD "")) then
          (["--ignore-environment",
            FormatOpt opt (vp ((environ (envn.getD "")).getD ""))], [])
        else (["--ignore-environment"], []))) ∧
    RegenerateFlags (fun s => s) (fun _ => none)
      ⟨true, [("suffix2", ⟨"-S", some "store", none, none⟩)],
        fun _ => .vstr "x"⟩ = (["--ignore-environment", "-Sx"], []) ∧
    RegenerateFlags (fun s => s)
      (fun n => if n = "GYP_CONFIG_DIR" then some "/cfg" else none)
      ⟨true, [("config_dir", ⟨"--config-dir", some "store", none,
        some "GYP_CONFIG_DIR"⟩)], fun _ => .vnone⟩ =
      (["--ignore-environment", "--config-dir=/cfg"], []) ∧
    RegenerateFlags (fun s => s) (fun _ => none)
      ⟨true, [("config_dir", ⟨"--config-dir", some "store", none,
        some "GYP_CONFIG_DIR"⟩)], fun _ => .vnone⟩ =
      (["--ignore-environment"], []) := by
  refine ⟨?_, rfl, rfl, rfl⟩
  intro fixRel environ useEnv name opt ty envn v
  by_cases hv : v.truthy = true
  · simp [RegenerateFlags, hv]
  · by_cases he : (useEnv && optStrTruthy envn &&
      optStrTruthy (environ (envn.getD ""))) = true
    · simp only [Bool.and_eq_true] at he
      simp [RegenerateFlags, hv, he.1.1, he.1.2, he.2]
    · simp [RegenerateFlags, hv, he]
      intro h1 h2
      simp only [Bool.and_eq_true] at he
      cases hx : optStrTruthy (environ (envn.getD ""))
      · rfl
      · exact absurd ⟨⟨h1, h2⟩, hx⟩ he

/-- C6: with environment influence enabled and a registered environment
variable, RegenerateAppendFlag first emits one formatted token per shell
token of the environment value with last-write-wins de-duplication, then
appends one token per explicit value unconditionally; with environment
influence disabled only the explicit-value tokens appear.  The closing
conjuncts are the specification's A-B-C example. -/
theorem regenerate_append_env_then_explicit :
    (∀ (flag : String) (predicate : String → String)
      (environ : String → Option String) (en : String)
      (values : List String),
      RegenerateAppendFlag flag values predicate (some en) true environ =
        (if en ≠ "" then
          dedupKeepLast ((ShlexEnv environ en).map
            (fun fv => FormatOpt flag (predicate fv)))
        else []) ++ values.map (fun fv => FormatOpt flag (predicate fv))) ∧
    (∀ (flag : String) (predicate : String → String)
      (environ : String → Option String) (env_name : Option String)
      (values : List String),
      RegenerateAppendFlag flag values predicate env_name false environ =
        values.map (fun fv => FormatOpt flag (predicate fv))) ∧
    RegenerateAppendFlag "-D" ["C"] (fun v => v) (some "GYP_DEFINES") true
      (fun n => if n = "GYP_DEFINES" then some "A B" else none) =
      ["-DA", "-DB", "-DC"] ∧
    RegenerateAppendFlag "-D" ["C"] (fun v => v) (some "GYP_DEFINES") false
      (fun n => if n = "GYP_DEFINES" then some "A B" else none) =
      ["-DC"] := by
  have hbody : ∀ (flag : String) (predicate : String → String)
      (toks : List String),
      toks.foldl (fun flags flag_value =>
        let value := FormatOpt flag (predicate flag_value)
        let flags := if flags.contains value then flags.erase value else flags
        flags ++ [value]) [] =
        dedupKeepLast (toks.map fun fv => FormatOpt flag (predicate fv)) := by
    intro flag predicate toks
    have h1 : (fun (flags : List String) (flag_value : String) =>
        let value := FormatOpt flag (predicate flag_value)
        let flags := if flags.contains value then flags.erase value else flags
        flags ++ [value]) =
        fun fl fv => appendStep fl (FormatOpt flag (predicate fv)) := rfl
    rw [h1, ← List.foldl_map (fun fv => FormatOpt flag (predicate fv))
      appendStep]
    rw [foldl_appendStep_eq _ [] List.nodup_nil]
    simp
  refine ⟨?_, ?_, ?_, ?_⟩
  · intro flag predicate environ en values
    unfold RegenerateAppendFlag
    by_cases he : en = ""
    · subst he
      cases values <;> simp [optStrTruthy]
    · have ht : optStrTruthy (some en) = true := by simp [optStrTruthy, he]
      simp only [ht, Bool.and_true, Bool.true_and, if_true, Option.getD_some,
        if_pos]
      rw [hbody]
      cases values <;> simp [he]
  · intro flag predicate environ env_name values
    unfold RegenerateAppendFlag
    cases values <;> simp
  · rfl
  · rfl
